import Mathlib

/-!
Verification of the SEO description generator's concurrent batch pipeline.

Shallow embedding of the repository's JavaScript core:
* `src/services/gemini.js` / `src/services/openAI.js` — `generateWithRetry`
  (both services share the identical retry loop);
* `src/utils/tokenCounter.js` — `TokenCounter.calculateCost`, `TokenUsageTracker`;
* `src/services/dataForSEO.js` — `getSearchVolume`, `processSearchVolumeResults`,
  `getTaskResults`, `getCompetitorContent`;
* `src/api/generate.js` — `processSinglePage`, `processPagesConcurrently`.

External effects (HTTP calls, the LLM, HTML parsing, timers) are modelled as
oracle functions passed in as parameters; fallible JavaScript code is modelled
with `Except String` (the string is the thrown error's message).  JavaScript
numbers are modelled as `Nat`/`Int`/`ℚ` as appropriate; `toFixed`/`Math.round`
are modelled exactly over `ℚ`.
-/

/-! ## JavaScript string primitives used by the embedded code -/

/-- Model of JavaScript `String.prototype.toLowerCase` (ASCII-accurate). -/
def jsLower (s : String) : String :=
  String.mk (s.data.map Char.toLower)

/-- Trim of a character list: drop whitespace from both ends. -/
def jsTrimList (l : List Char) : List Char :=
  ((l.dropWhile Char.isWhitespace).reverse.dropWhile Char.isWhitespace).reverse

/-- Model of JavaScript `String.prototype.trim`. -/
def jsTrim (s : String) : String :=
  String.mk (jsTrimList s.data)

/-- Model of `.replace(/\s+/g, ' ')`: each maximal whitespace run becomes one space.
The flag records whether the previous character was part of a whitespace run. -/
def collapseWsAux : Bool → List Char → List Char
  | _, [] => []
  | prevWs, c :: rest =>
    if c.isWhitespace then
      if prevWs then collapseWsAux true rest
      else ' ' :: collapseWsAux true rest
    else c :: collapseWsAux false rest

/-- Model of `.replace(/\s+/g, ' ')` on strings. -/
def collapseWs (s : String) : String :=
  String.mk (collapseWsAux false s.data)

/-- Model of JavaScript `.substring(0, n)`. -/
def jsSubstringTo (s : String) (n : Nat) : String :=
  String.mk (s.data.take n)

/-- Model of JavaScript `.length` on a string (character count). -/
def strLen (s : String) : Nat :=
  s.data.length

/-- Model of JavaScript `.includes(sub)` (substring containment). -/
def jsIncludes (s sub : String) : Bool :=
  s.data.tails.any (fun t => sub.data.isPrefixOf t)

/-- Model of JavaScript `x || d` for an optional string (both `null`/`undefined`
and the empty string are falsy). -/
def jsOrStr (o : Option String) (d : String) : String :=
  match o with
  | some s => if s = "" then d else s
  | none => d

/-! ## Numeric rounding as performed by the JavaScript code -/

/-- Model of JavaScript `Math.round`: round half toward positive infinity. -/
def jsRound (q : ℚ) : ℤ :=
  Rat.floor (q + 1 / 2)

/-- Model of `Number(x.toFixed(digits))` for the nonnegative values the code
rounds (half-up and half-away-from-zero agree there). -/
def jsToFixed (digits : Nat) (q : ℚ) : ℚ :=
  (jsRound (q * ((10 : ℚ) ^ digits)) : ℚ) / ((10 : ℚ) ^ digits)

/-! ## Brand length bounds (`src/config/constants.js`, `BRAND_GUIDELINES.structure.length`) -/

/-- `BRAND_GUIDELINES.structure.length.min`. -/
def brandLengthMin : Nat := 350

/-- `BRAND_GUIDELINES.structure.length.max`. -/
def brandLengthMax : Nat := 500

/-! ## Generation results and the retry engine (`src/services/gemini.js`) -/

/-- Per-call token usage attached to a generation result. -/
structure TokenUsage where
  promptTokens : Nat
  completionTokens : Nat
  totalTokens : Nat
  cost : ℚ
deriving DecidableEq

/-- The object `generateDescription` resolves with (gemini.js lines 139-150). -/
structure DescResult where
  pageName : String
  description : String
  wordCount : Nat
  isValidLength : Bool
  usage : TokenUsage
deriving DecidableEq

/-- The corrective feedback string built when an attempt violates the word-count
bound (gemini.js lines 310-312). -/
def wordCountFeedback (wordCount : Nat) : String :=
  if wordCount < brandLengthMin then
    "IMPORTANT: The previous attempt had only " ++ toString wordCount ++
      " words. You MUST write at least " ++ toString brandLengthMin ++ " words."
  else
    "IMPORTANT: The previous attempt had " ++ toString wordCount ++
      " words. You MUST keep it under " ++ toString brandLengthMax ++ " words."

/-- Trace of one `generateWithRetry` run: the attempt numbers on which the
generator was invoked, and the returned value (`Except.error` models a thrown
exception; `Except.ok none` models returning JavaScript `null`). -/
structure RetryTrace where
  calls : List Nat
  outcome : Except String (Option DescResult)

/-- Loop body of `generateWithRetry` (gemini.js lines 293-325).  The generator
oracle `gen` receives the attempt number and the current competitor-insights
context (the only call argument the loop mutates).  `fuel` counts the loop
iterations still allowed (`maxRetries + 1 - attempt`); the `attempt < maxRetries`
and `attempt === maxRetries` tests are the source's own. -/
def generateWithRetryAux (gen : Nat → Option String → Except String DescResult)
    (maxRetries : Nat) :
    Nat → Nat → Option String → Option DescResult → RetryTrace
  | 0, _, _, lastResult => ⟨[], .ok lastResult⟩
  | fuel + 1, attempt, competitorInsights, lastResult =>
    match gen attempt competitorInsights with
    | .ok result =>
      if result.isValidLength then ⟨[attempt], .ok (some result)⟩
      else
        let nextInsights :=
          if attempt < maxRetries then
            some (wordCountFeedback result.wordCount ++ "\n\n" ++
              competitorInsights.getD "")
          else competitorInsights
        let t := generateWithRetryAux gen maxRetries fuel (attempt + 1) nextInsights
          (some result)
        ⟨attempt :: t.calls, t.outcome⟩
    | .error e =>
      if attempt = maxRetries then ⟨[attempt], .error e⟩
      else
        let t := generateWithRetryAux gen maxRetries fuel (attempt + 1)
          competitorInsights lastResult
        ⟨attempt :: t.calls, t.outcome⟩

/-- `generateWithRetry(pageName, language, competitorInsights, searchVolume,
maxRetries)`: the loop runs `attempt = 1 .. maxRetries`, so it has exactly
`maxRetries` iterations of fuel. -/
def generateWithRetry (gen : Nat → Option String → Except String DescResult)
    (maxRetries : Nat) (competitorInsights : Option String) : RetryTrace :=
  generateWithRetryAux gen maxRetries maxRetries 1 competitorInsights none

/-- Default `maxRetries` of `generateWithRetry`. -/
def geminiDefaultMaxRetries : Nat := 3

/-! ## Token pricing and cost calculation (`src/utils/tokenCounter.js`, `src/config/constants.js`) -/

/-- Per-model unit prices, one entry of `TOKEN_PRICING`. -/
structure ModelPricing where
  input : ℚ
  output : ℚ
deriving DecidableEq

/-- The static pricing table `TOKEN_PRICING` (constants.js lines 186-208),
as a lookup from model identifier to unit prices. -/
def TOKEN_PRICING (model : String) : Option ModelPricing :=
  if model = "gpt-4o" then some ⟨2.50 / 1000000, 10.00 / 1000000⟩
  else if model = "gemini-2.0-flash" then some ⟨0.30 / 1000000, 2.50 / 1000000⟩
  else if model = "gpt-4-turbo-preview" then some ⟨0.01 / 1000, 0.03 / 1000⟩
  else if model = "gpt-4" then some ⟨0.03 / 1000, 0.06 / 1000⟩
  else if model = "gpt-3.5-turbo" then some ⟨0.001 / 1000, 0.002 / 1000⟩
  else none

/-- The object `calculateCost` returns (tokenCounter.js lines 426-430). -/
structure UsageCost where
  inputCost : ℚ
  outputCost : ℚ
  totalCost : ℚ
deriving DecidableEq

/-- `TokenCounter.calculateCost(inputTokens, outputTokens)` (tokenCounter.js
lines 415-431): unpriced models yield the all-zero cost; otherwise the raw
costs are computed first and each returned field is `Number(x.toFixed(6))`.
Note `totalCost` sums the raw (unrounded) parts before its own rounding. -/
def calculateCost (model : String) (inputTokens outputTokens : Nat) : UsageCost :=
  match TOKEN_PRICING model with
  | none => ⟨0, 0, 0⟩
  | some pricing =>
    let inputCost : ℚ := inputTokens * pricing.input
    let outputCost : ℚ := outputTokens * pricing.output
    let totalCost : ℚ := inputCost + outputCost
    ⟨jsToFixed 6 inputCost, jsToFixed 6 outputCost, jsToFixed 6 totalCost⟩

/-! ## The cost ledger (`src/utils/tokenCounter.js`, `TokenUsageTracker`, lines 464-515) -/

/-- Mutable state of a `TokenUsageTracker`.  A request-history entry keeps the
call's input tokens, output tokens and cost object; the wall-clock `timestamp`
and free-form `metadata` fields (logging-only) are omitted. -/
structure TokenUsageTracker where
  totalInputTokens : Nat
  totalOutputTokens : Nat
  totalCost : ℚ
  requests : List (Nat × Nat × UsageCost)

/-- `reset()`: zero every counter and clear the request history, regardless of
the prior state. -/
def TokenUsageTracker.reset (_t : TokenUsageTracker) : TokenUsageTracker :=
  ⟨0, 0, 0, []⟩

/-- The freshly constructed tracker (the constructor calls `reset()`). -/
def TokenUsageTracker.init : TokenUsageTracker :=
  ⟨0, 0, 0, []⟩

/-- `addRequest(inputTokens, outputTokens, cost, metadata)`: bump the running
totals by the request's tokens and `cost.totalCost`, and append the request to
the history. -/
def TokenUsageTracker.addRequest (t : TokenUsageTracker)
    (inputTokens outputTokens : Nat) (cost : UsageCost) : TokenUsageTracker :=
  { totalInputTokens := t.totalInputTokens + inputTokens
    totalOutputTokens := t.totalOutputTokens + outputTokens
    totalCost := t.totalCost + cost.totalCost
    requests := t.requests ++ [(inputTokens, outputTokens, cost)] }

/-- The object `getSummary()` returns (tokenCounter.js lines 503-514). -/
structure UsageSummary where
  totalInputTokens : Nat
  totalOutputTokens : Nat
  totalTokens : Nat
  totalCost : ℚ
  requestCount : Nat
  averageTokensPerRequest : ℤ
deriving DecidableEq

/-- `getSummary()`: pure projection of the tracker state; `totalCost` is
reported as `Number(x.toFixed(4))` and the average is `Math.round`ed, 0 when
there are no requests. -/
def TokenUsageTracker.getSummary (t : TokenUsageTracker) : UsageSummary :=
  { totalInputTokens := t.totalInputTokens
    totalOutputTokens := t.totalOutputTokens
    totalTokens := t.totalInputTokens + t.totalOutputTokens
    totalCost := jsToFixed 4 t.totalCost
    requestCount := t.requests.length
    averageTokensPerRequest :=
      if 0 < t.requests.length then
        jsRound (((t.totalInputTokens + t.totalOutputTokens : Nat) : ℚ) / t.requests.length)
      else 0 }

/-! ## DataForSEO search volume (`src/services/dataForSEO.js`, live-endpoint variant) -/

/-- One entry of a keyword's `monthly_searches` array. -/
structure MonthlySearch where
  year : Nat
  month : Nat
  volume : Int
deriving DecidableEq

/-- One record of the list `getSearchVolume` resolves with. -/
structure SearchVolumeRecord where
  keyword : String
  searchVolume : Int
  competition : String
  cpc : ℚ
  monthlySearches : List MonthlySearch
deriving DecidableEq

/-- The zero-filled fallback record for a keyword the provider has no data
for (dataForSEO.js lines 143-149 and 252-258). -/
def zeroVolumeRecord (keyword : String) : SearchVolumeRecord :=
  ⟨keyword, 0, "Unknown", 0, []⟩

/-- The provider's optional `keyword_info` object on a result item.  `none`
models an absent (`null`/`undefined`) field. -/
structure KeywordInfo where
  search_volume : Option Int
  competition : Option String
  cpc : Option ℚ
  monthly_searches : Option (List MonthlySearch)

/-- One item of `tasks[0].result` in the provider's search-volume response. -/
structure ResultItem where
  keyword : String
  keyword_info : Option KeywordInfo
  search_volume : Option Int
  competition : Option String
  cpc : Option ℚ
  monthly_searches : Option (List MonthlySearch)

/-- One element of the provider response's `tasks` array; `result` is `none`
when the task carries no (or a null) result payload. -/
structure SVTask where
  result : Option (List ResultItem)

/-- The provider's search-volume response body (`tasks` is empty when the field
is missing). -/
structure SVResponse where
  tasks : List SVTask

/-- The guard `item.keyword_info || typeof item.search_volume !== 'undefined'`
(dataForSEO.js line 227). -/
def hasVolumeData (item : ResultItem) : Bool :=
  item.keyword_info.isSome || item.search_volume.isSome

/-- The record built from one qualifying result item (dataForSEO.js lines
228-240): each field prefers the item's own flat field and falls back to
`keyword_info` with a JavaScript `||` default. -/
def itemRecord (item : ResultItem) : SearchVolumeRecord :=
  { keyword := item.keyword
    searchVolume :=
      match item.search_volume with
      | some v => v
      | none => match item.keyword_info with
        | some ki => ki.search_volume.getD 0
        | none => 0
    competition :=
      match item.competition with
      | some c => c
      | none => match item.keyword_info with
        | some ki => jsOrStr ki.competition "Unknown"
        | none => "Unknown"
    cpc :=
      match item.cpc with
      | some v => v
      | none => match item.keyword_info with
        | some ki => ki.cpc.getD 0
        | none => 0
    monthlySearches :=
      match item.monthly_searches with
      | some l => l
      | none => match item.keyword_info with
        | some ki => ki.monthly_searches.getD []
        | none => [] }

/-- The `volumeMap` built by the `forEach` over the result items (dataForSEO.js
lines 215-243): a `Map` keyed by the item keyword lowercased; a later item with
the same key overwrites an earlier one. -/
def buildVolumeMap (results : List ResultItem) : String → Option SearchVolumeRecord :=
  results.foldl
    (fun volumeMap item =>
      if hasVolumeData item then
        fun key => if key = jsLower item.keyword then some (itemRecord item) else volumeMap key
      else volumeMap)
    (fun _ => none)

/-- One entry of the final keyword-indexed mapping (dataForSEO.js lines
246-259): a map hit keeps the data but restores the original keyword casing; a
miss yields the zero-filled record. -/
def svEntry (volumeMap : String → Option SearchVolumeRecord)
    (keyword normalizedKeyword : String) : SearchVolumeRecord :=
  match volumeMap normalizedKeyword with
  | some data => { data with keyword := keyword }
  | none => zeroVolumeRecord keyword

/-- The positional `originalKeywords.map((keyword, index) => ...)`: the keyword
at index `i` is paired with `normalizedKeywords[i]`; an out-of-range index reads
`undefined`, whose map lookup always misses, yielding the zero record. -/
def mapOriginalKeywords (volumeMap : String → Option SearchVolumeRecord) :
    List String → List String → List SearchVolumeRecord
  | [], _ => []
  | keyword :: rest, [] =>
    zeroVolumeRecord keyword :: mapOriginalKeywords volumeMap rest []
  | keyword :: rest, nk :: nks =>
    svEntry volumeMap keyword nk :: mapOriginalKeywords volumeMap rest nks

/-- `processSearchVolumeResults(results, originalKeywords, normalizedKeywords)`
(dataForSEO.js lines 206-260). -/
def processSearchVolumeResults (results : List ResultItem)
    (originalKeywords normalizedKeywords : List String) : List SearchVolumeRecord :=
  mapOriginalKeywords (buildVolumeMap results) originalKeywords normalizedKeywords

/-- Keyword normalization before querying: `k.toLowerCase().trim()`
(dataForSEO.js line 101). -/
def normalizeKeyword (k : String) : String :=
  jsTrim (jsLower k)

/-- `getSearchVolume(keywords, location, language)` (dataForSEO.js lines
93-172), as a function of the provider's live-endpoint response: no tasks is a
thrown error; a task without results maps every keyword to the zero record;
otherwise the results are processed against the normalized keywords. -/
def getSearchVolume (keywords : List String) (response : SVResponse) :
    Except String (List SearchVolumeRecord) :=
  let normalizedKeywords := keywords.map normalizeKeyword
  match response.tasks with
  | [] => .error "No tasks in response"
  | task :: _ =>
    match task.result with
    | none => .ok (keywords.map zeroVolumeRecord)
    | some items =>
      if items.isEmpty then .ok (keywords.map zeroVolumeRecord)
      else .ok (processSearchVolumeResults items keywords normalizedKeywords)

/-! ## DataForSEO task polling (`getTaskResults`, dataForSEO.js lines 177-201) -/

/-- The wait applied after the `i`-th (0-based) unsuccessful polling attempt:
`5000 + i * 3000` milliseconds. -/
def pollWaitTime (i : Nat) : Nat :=
  5000 + i * 3000

/-- Trace of one `getTaskResults` run: the 0-based indices of the attempts
made, the waits (in ms) slept between attempts, and the returned value. -/
structure PollTrace where
  calls : List Nat
  waits : List Nat
  outcome : Except String (List ResultItem)

/-- The polling loop `for (let i = 0; i < retries; i++)` of `getTaskResults`,
over an oracle giving each attempt's `makeRequest` outcome.  `fuel` counts the
remaining iterations (`retries - i`); the `i < retries - 1` and
`i === retries - 1` tests are the source's own.  Falling out of the loop throws
the hard maximum-retries error. -/
def getTaskResultsAux (request : Nat → Except String SVResponse) (retries : Nat) :
    Nat → Nat → PollTrace
  | 0, _ => ⟨[], [], .error "Failed to get task results after maximum retries"⟩
  | fuel + 1, i =>
    match request i with
    | .ok response =>
      match response.tasks.head?.bind (fun t => t.result) with
      | some result => ⟨[i], [], .ok result⟩
      | none =>
        let t := getTaskResultsAux request retries fuel (i + 1)
        if i < retries - 1 then ⟨i :: t.calls, pollWaitTime i :: t.waits, t.outcome⟩
        else ⟨i :: t.calls, t.waits, t.outcome⟩
    | .error e =>
      if i = retries - 1 then ⟨[i], [], .error e⟩
      else
        let t := getTaskResultsAux request retries fuel (i + 1)
        ⟨i :: t.calls, pollWaitTime i :: t.waits, t.outcome⟩

/-- `getTaskResults(taskId, retries)`: run the polling loop from `i = 0` with
`retries` iterations of fuel. -/
def getTaskResults (request : Nat → Except String SVResponse) (retries : Nat) : PollTrace :=
  getTaskResultsAux request retries retries 0

/-- An attempt that did not obtain a result payload: either the request
succeeded but `tasks[0].result` is absent, or the loop would move on; a thrown
request is not "pending" (it has its own handling). -/
def attemptPending (r : Except String SVResponse) : Bool :=
  match r with
  | .ok response => (response.tasks.head?.bind (fun t => t.result)).isNone
  | .error _ => false

/-! ## Competitor content extraction (`getCompetitorContent`, dataForSEO.js lines 320-388) -/

/-- What the HTML stage of a successful per-URL fetch extracts before the
code's own post-processing: the `<title>` text, the meta description (already
defaulted to `''` by `|| ''`), and the stripped `$('body').text()`. -/
structure FetchedPage where
  title : String
  metaDescription : String
  bodyText : String

/-- One entry of the list `getCompetitorContent` builds per attempted URL. -/
structure CompetitorContent where
  url : String
  domain : String
  title : String
  metaDescription : String
  content : String
  contentLength : Nat
deriving DecidableEq

/-- The placeholder entry produced when a URL's fetch fails (dataForSEO.js
lines 366-374). -/
def placeholderContent (domainOf : String → String) (url : String) : CompetitorContent :=
  ⟨url, domainOf url, "Content unavailable", "",
    "Unable to fetch content from this source.", 0⟩

/-- The per-URL callback of `getCompetitorContent` (dataForSEO.js lines
324-376): on success the body text is whitespace-collapsed, trimmed and cut to
3000 characters, and `contentLength` is that text's length; a thrown fetch is
caught and yields the placeholder entry.  `fetchPage` is the HTTP+HTML oracle
(`none` models a fetch failure); `domainOf` models `new URL(url).hostname` with
its `'unknown'` catch. -/
def competitorEntry (fetchPage : String → Option FetchedPage)
    (domainOf : String → String) (url : String) : CompetitorContent :=
  match fetchPage url with
  | some page =>
    let bodyText := jsSubstringTo (jsTrim (collapseWs page.bodyText)) 3000
    ⟨url, domainOf url, jsTrim page.title, page.metaDescription,
      bodyText, strLen bodyText⟩
  | none => placeholderContent domainOf url

/-- `getCompetitorContent(urls, limit)` (dataForSEO.js lines 320-388): only the
first `limit` URLs are attempted (`urls.slice(0, limit)`), each attempt settles
to an entry (placeholder on failure), and the returned list keeps only entries
with `contentLength > 100`. -/
def getCompetitorContent (fetchPage : String → Option FetchedPage)
    (domainOf : String → String) (urls : List String) (limit : Nat) :
    List CompetitorContent :=
  let results := (urls.take limit).map (competitorEntry fetchPage domainOf)
  results.filter (fun r => 100 < r.contentLength)

/-- Default `limit` of `getCompetitorContent`. -/
def competitorContentDefaultLimit : Nat := 3

/-! ## Batch orchestration (`src/api/generate.js`) -/

/-- `SYSTEM_CONFIG.parallel.maxConcurrent` (constants.js line 173). -/
def SYSTEM_CONFIG_maxConcurrent : Nat := 3

/-- The final per-page object `processSinglePage` resolves with
(generate.js lines 171-181). -/
structure PageResult where
  pageName : String
  description : String
  wordCount : Nat
  isValidLength : Bool
  searchVolume : Option Int
  usage : TokenUsage
  hasCompetitorInsights : Bool
  competitorDomains : List String
  seatpickTop3 : Bool
deriving DecidableEq

/-- Environment of one `/generate` request: which optional services are
configured and requested, and oracles for the external calls a page makes.
`generateDescription` is the per-page single-attempt generator handed to
`generateWithRetry` (attempt number and mutated competitor insights vary
between attempts; the page's search-volume record is fixed). -/
structure GenEnv where
  includeSearchVolume : Bool
  includeCompetitorAnalysis : Bool
  hasDataForSEO : Bool
  hasAIService : Bool
  svFetch : String → Except String (List SearchVolumeRecord)
  competitorAnalysis : String → List String × Option String
  generateDescription : String → Option SearchVolumeRecord →
    Nat → Option String → Except String DescResult

/-- The `searchVolume` local of `processSinglePage` after the data-gathering
promises settle (generate.js lines 95-118): requested and configured fetches
set it to `data[0]`; a rejection is caught (`null` stays); otherwise it is
never touched. -/
def svLookup (env : GenEnv) (pageName : String) : Option SearchVolumeRecord :=
  if env.includeSearchVolume && env.hasDataForSEO then
    match env.svFetch pageName with
    | .ok data => data.head?
    | .error _ => none
  else none

/-- The `(competitorDomains, competitorInsights)` locals after the competitor
branch settles (generate.js lines 120-155); the whole branch's failures are
caught, so it is a total oracle, and it only runs when requested and both
services are configured. -/
def compLookup (env : GenEnv) (pageName : String) : List String × Option String :=
  if env.includeCompetitorAnalysis && env.hasDataForSEO && env.hasAIService then
    env.competitorAnalysis pageName
  else ([], none)

/-- `processSinglePage(pageName, ...)` (generate.js lines 91-182): gather
search volume and competitor data, compute `seatpickTop3`, then run
`generateWithRetry`; only the generation step can throw out of the function.
`Except.ok none` from the retry engine would be JavaScript `null` and make the
subsequent property read throw a `TypeError` (unreachable with `maxRetries = 3`). -/
def processSinglePage (env : GenEnv) (pageName : String) : Except String PageResult :=
  let searchVolume := svLookup env pageName
  let comp := compLookup env pageName
  let competitorDomains := comp.1
  let competitorInsights := comp.2
  let seatpickTop3 := competitorDomains.any
    (fun domain => !(domain = "") && jsIncludes (jsLower domain) "seatpick.com")
  match (generateWithRetry (env.generateDescription pageName searchVolume)
      geminiDefaultMaxRetries competitorInsights).outcome with
  | .error e => .error e
  | .ok none => .error "TypeError: Cannot read properties of null"
  | .ok (some descriptionResult) =>
    .ok
      { pageName := pageName
        description := descriptionResult.description
        wordCount := descriptionResult.wordCount
        isValidLength := descriptionResult.isValidLength
        searchVolume :=
          match searchVolume with
          | some record => if record.searchVolume = 0 then none else some record.searchVolume
          | none => none
        usage := descriptionResult.usage
        hasCompetitorInsights :=
          match competitorInsights with
          | some s => !(s = "")
          | none => false
        competitorDomains := competitorDomains
        seatpickTop3 := seatpickTop3 }

/-- One element of the list `processPagesConcurrently` resolves with: a page's
result spread together with `success: true`, or the catch handler's
`{ pageName, success: false, error }` (generate.js lines 60-79). -/
structure BatchEntry where
  pageName : String
  success : Bool
  error : Option String
  payload : Option PageResult
deriving DecidableEq

/-- The per-page failure boundary inside a batch (generate.js lines 60-79). -/
def pageOutcome (env : GenEnv) (pageName : String) : BatchEntry :=
  match processSinglePage env pageName with
  | .ok result => ⟨result.pageName, true, none, some result⟩
  | .error e => ⟨pageName, false, some e, none⟩

/-- The batch loop `for (let i = 0; i < pages.length; i += batchSize)`
(generate.js lines 56-83): each slice of `batchSize` pages is mapped through
the failure boundary (`Promise.all` keeps the slice's order) and appended to
the running result list.  Termination needs `batchSize ≥ 1` (true of the
configured value 3); the recursion realizes the slice as head plus
`take (batchSize - 1)` of the tail, which agrees with `slice` for any
`batchSize ≥ 1`. -/
def processBatchLoop (f : String → BatchEntry) (batchSize : Nat) :
    List String → List BatchEntry
  | [] => []
  | p :: ps =>
    (f p :: (ps.take (batchSize - 1)).map f) ++
      processBatchLoop f batchSize (ps.drop (batchSize - 1))
termination_by l => l.length
decreasing_by simp [List.length_drop]; omega

/-- `processPagesConcurrently(pages, ...)` (generate.js lines 52-86) with
`batchSize = SYSTEM_CONFIG.parallel.maxConcurrent`. -/
def processPagesConcurrently (env : GenEnv) (pages : List String) : List BatchEntry :=
  processBatchLoop (pageOutcome env) SYSTEM_CONFIG_maxConcurrent pages

/-! ## Auxiliary predicates and concrete test fixtures -/

/-- The provider returned no usable data for a (normalized) keyword: the first
task has no result payload, or no qualifying result item carries that keyword
(compared lowercased, as the `volumeMap` keys are). -/
def providerHasNoData (response : SVResponse) (normalizedKeyword : String) : Prop :=
  match response.tasks with
  | [] => True
  | task :: _ =>
    match task.result with
    | none => True
    | some items =>
      ∀ item ∈ items, hasVolumeData item = true → jsLower item.keyword ≠ normalizedKeyword

/-- A generation result that violates the word-count bound, for concrete runs. -/
def shortResult : DescResult :=
  ⟨"page", "too short", 10, false, ⟨1, 1, 2, 0⟩⟩

/-- A generation result that satisfies the word-count bound, for concrete runs. -/
def validResult (pageName : String) : DescResult :=
  ⟨pageName, "long enough", 400, true, ⟨1, 1, 2, 0⟩⟩

/-- A generator that always succeeds with a too-short description. -/
def alwaysShortGen : Nat → Option String → Except String DescResult :=
  fun _ _ => Except.ok shortResult

/-- A generator that always throws. -/
def alwaysThrowGen : Nat → Option String → Except String DescResult :=
  fun _ _ => Except.error "boom"

/-- Concrete search-volume keyword list for a run of `getSearchVolume`. -/
def c5Keywords : List String := ["SeatPick"]

/-- Concrete provider response whose only result item is for another keyword. -/
def c5Response : SVResponse :=
  ⟨[⟨some [⟨"other", some ⟨some 5, some "HIGH", some 1, some []⟩, none, none, none, none⟩]⟩]⟩

/-- The record list `getSearchVolume` produces on `c5Keywords`/`c5Response`. -/
def c5Records : List SearchVolumeRecord := [zeroVolumeRecord "SeatPick"]

/-- A polling oracle whose every response has no tasks (so never a result). -/
def c8Request : Nat → Except String SVResponse :=
  fun _ => Except.ok ⟨[]⟩

/-- A fetch oracle returning a body of exactly 100 non-whitespace characters. -/
def c7Fetch : String → Option FetchedPage :=
  fun _ => some ⟨"t", "m", String.mk (List.replicate 100 'a')⟩

/-- A trivial hostname oracle. -/
def c7Domain : String → String :=
  fun _ => "example.com"

/-- Batch environment whose generator fails permanently for the page named
`"bad"` and succeeds for every other page. -/
def c2Env : GenEnv :=
  { includeSearchVolume := false
    includeCompetitorAnalysis := false
    hasDataForSEO := false
    hasAIService := true
    svFetch := fun _ => Except.error "not configured"
    competitorAnalysis := fun _ => ([], none)
    generateDescription := fun pageName _ _ _ =>
      if pageName = "bad" then Except.error "generator failed"
      else Except.ok (validResult pageName) }

/-- Batch environment whose search-volume fetch succeeds with the zero-filled
fallback record and whose generator succeeds on the first attempt. -/
def c10Env : GenEnv :=
  { includeSearchVolume := true
    includeCompetitorAnalysis := false
    hasDataForSEO := true
    hasAIService := true
    svFetch := fun pageName => Except.ok [zeroVolumeRecord pageName]
    competitorAnalysis := fun _ => ([], none)
    generateDescription := fun pageName _ _ _ => Except.ok (validResult pageName) }

/-- The page result `processSinglePage` produces in `c10Env`. -/
def c10Res : PageResult :=
  ⟨"p", "long enough", 400, true, none, ⟨1, 1, 2, 0⟩, false, [], false⟩

/-! ## Lemmas about the retry engine -/

/-- When every generator call succeeds with a length-violating result, the loop
visits every remaining attempt and ends up returning the last attempt's result. -/
theorem generateWithRetryAux_all_invalid
    (gen : Nat → Option String → Except String DescResult)
    (f : Nat → Option String → DescResult)
    (hgen : ∀ n ins, gen n ins = Except.ok (f n ins))
    (hbad : ∀ n ins, (f n ins).isValidLength = false) (mR : Nat) :
    ∀ fuel a ins last, a + fuel = mR + 1 → a ≤ mR →
      ∃ insF, generateWithRetryAux gen mR fuel a ins last =
        ⟨List.range' a fuel, Except.ok (some (f mR insF))⟩ := by
  intro fuel
  induction fuel with
  | zero => intro a ins last h2 h3; omega
  | succ fuel ih =>
    intro a ins last h2 h3
    rw [show generateWithRetryAux gen mR (fuel + 1) a ins last =
        (match gen a ins with
        | .ok result =>
          if result.isValidLength then ⟨[a], .ok (some result)⟩
          else
            let nextInsights :=
              if a < mR then
                some (wordCountFeedback result.wordCount ++ "\n\n" ++ ins.getD "")
              else ins
            let t := generateWithRetryAux gen mR fuel (a + 1) nextInsights (some result)
            ⟨a :: t.calls, t.outcome⟩
        | .error e =>
          if a = mR then ⟨[a], .error e⟩
          else
            let t := generateWithRetryAux gen mR fuel (a + 1) ins last
            ⟨a :: t.calls, t.outcome⟩ : RetryTrace) from rfl]
    rw [hgen a ins]
    simp only [hbad a ins, Bool.false_eq_true, if_false]
    by_cases hlt : a < mR
    · obtain ⟨insF, hF⟩ := ih (a + 1)
        (some (wordCountFeedback (f a ins).wordCount ++ "\n\n" ++ ins.getD ""))
        (some (f a ins)) (by omega) (by omega)
      refine ⟨insF, ?_⟩
      simp only [if_pos hlt, hF]
      have : List.range' a (fuel + 1) = a :: List.range' (a + 1) fuel :=
        List.range'_succ a fuel 1
      rw [this]
    · have ha : a = mR := by omega
      have hfuel : fuel = 0 := by omega
      subst ha hfuel
      refine ⟨ins, ?_⟩
      simp only [if_neg hlt]
      rfl

/-- One-step unfolding of the retry loop body. -/
theorem generateWithRetryAux_succ
    (gen : Nat → Option String → Except String DescResult)
    (mR fuel a : Nat) (ins : Option String) (last : Option DescResult) :
    generateWithRetryAux gen mR (fuel + 1) a ins last =
      (match gen a ins with
      | .ok result =>
        if result.isValidLength then ⟨[a], .ok (some result)⟩
        else
          let nextInsights :=
            if a < mR then
              some (wordCountFeedback result.wordCount ++ "\n\n" ++ ins.getD "")
            else ins
          let t := generateWithRetryAux gen mR fuel (a + 1) nextInsights (some result)
          ⟨a :: t.calls, t.outcome⟩
      | .error e =>
        if a = mR then ⟨[a], .error e⟩
        else
          let t := generateWithRetryAux gen mR fuel (a + 1) ins last
          ⟨a :: t.calls, t.outcome⟩ : RetryTrace) := rfl

/-- When attempts before `nv` are length-violating and attempt `nv` is valid,
the loop stops at `nv` and returns that attempt's result. -/
theorem generateWithRetryAux_first_valid
    (gen : Nat → Option String → Except String DescResult)
    (f : Nat → Option String → DescResult)
    (hgen : ∀ n ins, gen n ins = Except.ok (f n ins))
    (mR nv : Nat) (hnv : nv ≤ mR)
    (hbefore : ∀ m ins, m < nv → (f m ins).isValidLength = false)
    (hvalid : ∀ ins, (f nv ins).isValidLength = true) :
    ∀ fuel a ins last, a + fuel = mR + 1 → a ≤ nv →
      ∃ insF, generateWithRetryAux gen mR fuel a ins last =
        ⟨List.range' a (nv + 1 - a), Except.ok (some (f nv insF))⟩ := by
  intro fuel
  induction fuel with
  | zero => intro a ins last h2 h3; omega
  | succ fuel ih =>
    intro a ins last h2 h3
    rw [generateWithRetryAux_succ, hgen a ins]
    by_cases heq : a = nv
    · refine ⟨ins, ?_⟩
      rw [heq]
      simp only [hvalid ins, if_true]
      have h5 : nv + 1 - nv = 1 := by omega
      rw [h5]
      rfl
    · have hlt : a < nv := by omega
      simp only [hbefore a ins hlt, Bool.false_eq_true, if_false]
      obtain ⟨insF, hF⟩ := ih (a + 1)
        (if a < mR then
          some (wordCountFeedback (f a ins).wordCount ++ "\n\n" ++ ins.getD "")
        else ins) (some (f a ins)) (by omega) (by omega)
      refine ⟨insF, ?_⟩
      have hco : nv + 1 - (a + 1) = nv - a := by omega
      rw [hco] at hF
      simp only [hF]
      have hr : List.range' a (nv + 1 - a) = a :: List.range' (a + 1) (nv - a) := by
        have h5 : nv + 1 - a = (nv - a) + 1 := by omega
        rw [h5]
        exact List.range'_succ a (nv - a) 1
      rw [hr]

/-- When every generator call throws, the loop visits every remaining attempt
and rethrows the final attempt's error (the insights context is never mutated
on the error path). -/
theorem generateWithRetryAux_all_error
    (gen : Nat → Option String → Except String DescResult)
    (err : Nat → Option String → String)
    (hgen : ∀ n ins, gen n ins = Except.error (err n ins)) (mR : Nat) :
    ∀ fuel a ins last, a + fuel = mR + 1 → a ≤ mR →
      generateWithRetryAux gen mR fuel a ins last =
        ⟨List.range' a fuel, Except.error (err mR ins)⟩ := by
  intro fuel
  induction fuel with
  | zero => intro a ins last h2 h3; omega
  | succ fuel ih =>
    intro a ins last h2 h3
    rw [generateWithRetryAux_succ, hgen a ins]
    by_cases heq : a = mR
    · subst heq
      have hfuel : fuel = 0 := by omega
      subst hfuel
      simp only [if_pos rfl]
      rfl
    · simp only [if_neg heq]
      have hF := ih (a + 1) ins last (by omega) (by omega)
      simp only [hF]
      have : List.range' a (fuel + 1) = a :: List.range' (a + 1) fuel :=
        List.range'_succ a fuel 1
      rw [this]

/-! ## Claims C3 and C4: the generation-with-retry engine -/

/-- Claim C3: for a generator whose every call returns a length-violating
result, `generateWithRetry` performs exactly `maxRetries` attempts and then
returns the final attempt's still-violating result without throwing; and if
some attempt `nv ≤ maxRetries` is the first to return a valid-length result,
it performs exactly `nv` attempts and returns that result immediately. -/
theorem generateWithRetry_wordcount_spec
    (gen : Nat → Option String → Except String DescResult)
    (f : Nat → Option String → DescResult)
    (maxRetries : Nat) (competitorInsights : Option String)
    (hgen : ∀ n ins, gen n ins = Except.ok (f n ins))
    (hmr : 1 ≤ maxRetries) :
    ((∀ n ins, (f n ins).isValidLength = false) →
      (generateWithRetry gen maxRetries competitorInsights).calls = List.range' 1 maxRetries ∧
      (generateWithRetry gen maxRetries competitorInsights).calls.length = maxRetries ∧
      ∃ insF, (generateWithRetry gen maxRetries competitorInsights).outcome =
          Except.ok (some (f maxRetries insF)) ∧
        (f maxRetries insF).isValidLength = false) ∧
    (∀ nv, 1 ≤ nv → nv ≤ maxRetries →
      (∀ m ins, m < nv → (f m ins).isValidLength = false) →
      (∀ ins, (f nv ins).isValidLength = true) →
      (generateWithRetry gen maxRetries competitorInsights).calls = List.range' 1 nv ∧
      (generateWithRetry gen maxRetries competitorInsights).calls.length = nv ∧
      ∃ insF, (generateWithRetry gen maxRetries competitorInsights).outcome =
          Except.ok (some (f nv insF)) ∧ (f nv insF).isValidLength = true) := by
  constructor
  · intro hbad
    obtain ⟨insF, hF⟩ := generateWithRetryAux_all_invalid gen f hgen hbad maxRetries
      maxRetries 1 competitorInsights none (by omega) (by omega)
    unfold generateWithRetry
    rw [hF]
    exact ⟨rfl, by simp, ⟨insF, rfl, hbad _ _⟩⟩
  · intro nv h1 h2 hbefore hvalid
    obtain ⟨insF, hF⟩ := generateWithRetryAux_first_valid gen f hgen maxRetries nv h2
      hbefore hvalid maxRetries 1 competitorInsights none (by omega) (by omega)
    have hco : nv + 1 - 1 = nv := by omega
    rw [hco] at hF
    unfold generateWithRetry
    rw [hF]
    exact ⟨rfl, by simp, ⟨insF, rfl, hvalid insF⟩⟩

/-- Closed witness for claim C3 at `maxRetries = 3` and an always-too-short
generator. -/
theorem generateWithRetry_wordcount_spec_witness :
    (∀ n ins, alwaysShortGen n ins = Except.ok shortResult) ∧ 1 ≤ 3 ∧
    ((generateWithRetry alwaysShortGen 3 none).calls = List.range' 1 3 ∧
      (generateWithRetry alwaysShortGen 3 none).calls.length = 3 ∧
      ∃ insF : Option String, (generateWithRetry alwaysShortGen 3 none).outcome =
          Except.ok (some shortResult) ∧ shortResult.isValidLength = false) :=
  ⟨fun _ _ => rfl, by omega,
    (generateWithRetry_wordcount_spec alwaysShortGen (fun _ _ => shortResult) 3 none
      (fun _ _ => rfl) (by omega)).1 (fun _ _ => rfl)⟩

/-- Claim C4: a generator exception on attempt `n < maxRetries` is swallowed
and the loop proceeds to attempt `n + 1` with unchanged context; an exception
on attempt `n = maxRetries` is rethrown; and when every attempt throws, the
final attempt's error propagates out of `generateWithRetry`. -/
theorem generateWithRetry_error_spec
    (gen : Nat → Option String → Except String DescResult)
    (maxRetries n fuel : Nat) (e : String)
    (ins : Option String) (last : Option DescResult)
    (herr : gen n ins = Except.error e) :
    (n < maxRetries →
      generateWithRetryAux gen maxRetries (fuel + 1) n ins last =
        ⟨n :: (generateWithRetryAux gen maxRetries fuel (n + 1) ins last).calls,
          (generateWithRetryAux gen maxRetries fuel (n + 1) ins last).outcome⟩) ∧
    (n = maxRetries →
      generateWithRetryAux gen maxRetries (fuel + 1) n ins last = ⟨[n], Except.error e⟩) ∧
    (∀ err : Nat → Option String → String,
      (∀ k ins2, gen k ins2 = Except.error (err k ins2)) →
      1 ≤ maxRetries → ∀ ins0,
        (generateWithRetry gen maxRetries ins0).outcome = Except.error (err maxRetries ins0)) := by
  refine ⟨?_, ?_, ?_⟩
  · intro hlt
    rw [generateWithRetryAux_succ, herr]
    simp only [if_neg (show ¬ n = maxRetries by omega)]
  · intro heq
    rw [generateWithRetryAux_succ, herr]
    simp only [if_pos heq]
  · intro err hall hmr ins0
    unfold generateWithRetry
    rw [generateWithRetryAux_all_error gen err hall maxRetries maxRetries 1 ins0 none
      (by omega) (by omega)]

/-- Closed witness for claim C4 at an always-throwing generator. -/
theorem generateWithRetry_error_spec_witness :
    alwaysThrowGen 1 none = Except.error "boom" ∧
    (generateWithRetry alwaysThrowGen 3 none).outcome = Except.error "boom" :=
  ⟨rfl,
    (generateWithRetry_error_spec alwaysThrowGen 3 1 0 "boom" none none rfl).2.2
      (fun _ _ => "boom") (fun _ _ => rfl) (by omega) none⟩

/-! ## Lemmas about rounding and the ledger -/

/-- `Math.round` is within one half of its argument. -/
theorem abs_jsRound_sub_le (q : ℚ) : |(jsRound q : ℚ) - q| ≤ 1 / 2 := by
  have heq : jsRound q = ⌊q + 1 / 2⌋ := rfl
  rw [heq, abs_sub_le_iff]
  have h2 := Int.floor_le (q + 1 / 2)
  have h3 := Int.lt_floor_add_one (q + 1 / 2)
  constructor <;> linarith

/-- `Number(x.toFixed(d))` is within half a unit in the last place. -/
theorem abs_jsToFixed_sub_le (digits : Nat) (q : ℚ) :
    |jsToFixed digits q - q| ≤ 1 / (2 * 10 ^ digits) := by
  have h10 : (0 : ℚ) < 10 ^ digits := by positivity
  have h1 : jsToFixed digits q - q =
      ((jsRound (q * 10 ^ digits) : ℚ) - q * 10 ^ digits) / 10 ^ digits := by
    unfold jsToFixed
    field_simp
    ring
  rw [h1, abs_div, abs_of_pos h10]
  have h2 := abs_jsRound_sub_le (q * 10 ^ digits)
  rw [div_le_div_iff h10 (by positivity : (0 : ℚ) < 2 * 10 ^ digits)]
  calc |(jsRound (q * 10 ^ digits) : ℚ) - q * 10 ^ digits| * (2 * 10 ^ digits)
      ≤ (1 / 2) * (2 * 10 ^ digits) := by
        apply mul_le_mul_of_nonneg_right h2
        positivity
    _ = 1 * 10 ^ digits := by ring

/-- Running a request list through `addRequest` adds the component sums to each
counter and appends the list to the history. -/
theorem tracker_foldl_fields (reqs : List (Nat × Nat × UsageCost)) :
    ∀ t : TokenUsageTracker,
      (reqs.foldl (fun st r => st.addRequest r.1 r.2.1 r.2.2) t).totalInputTokens =
        t.totalInputTokens + (reqs.map (fun r => r.1)).sum ∧
      (reqs.foldl (fun st r => st.addRequest r.1 r.2.1 r.2.2) t).totalOutputTokens =
        t.totalOutputTokens + (reqs.map (fun r => r.2.1)).sum ∧
      (reqs.foldl (fun st r => st.addRequest r.1 r.2.1 r.2.2) t).totalCost =
        t.totalCost + (reqs.map (fun r => r.2.2.totalCost)).sum ∧
      (reqs.foldl (fun st r => st.addRequest r.1 r.2.1 r.2.2) t).requests =
        t.requests ++ reqs := by
  induction reqs with
  | nil => intro t; simp
  | cons r rest ih =>
    intro t
    obtain ⟨h1, h2, h3, h4⟩ := ih (t.addRequest r.1 r.2.1 r.2.2)
    simp only [List.foldl_cons, List.map_cons, List.sum_cons]
    refine ⟨?_, ?_, ?_, ?_⟩
    · rw [h1]; simp [TokenUsageTracker.addRequest]; omega
    · rw [h2]; simp [TokenUsageTracker.addRequest]; omega
    · rw [h3]; simp [TokenUsageTracker.addRequest]; ring
    · rw [h4]; simp [TokenUsageTracker.addRequest]

/-! ## Claims C6 and C9: cost ledger and cost calculation -/

/-- Claim C6: after `N` `addRequest` calls on a freshly reset tracker,
`getSummary` reports the exact token sums, the request count, the cost sum up
to 4-decimal rounding (within `1/20000` of the exact sum), and the rounded
average (0 for an empty history); `reset` returns every counter to zero and
empties the history regardless of prior state. -/
theorem tokenUsageTracker_spec (t0 : TokenUsageTracker)
    (reqs : List (Nat × Nat × UsageCost)) :
    t0.reset = TokenUsageTracker.init ∧
    (reqs.foldl (fun st r => st.addRequest r.1 r.2.1 r.2.2) t0.reset).getSummary =
      { totalInputTokens := (reqs.map (fun r => r.1)).sum
        totalOutputTokens := (reqs.map (fun r => r.2.1)).sum
        totalTokens := (reqs.map (fun r => r.1)).sum + (reqs.map (fun r => r.2.1)).sum
        totalCost := jsToFixed 4 ((reqs.map (fun r => r.2.2.totalCost)).sum)
        requestCount := reqs.length
        averageTokensPerRequest :=
          if 0 < reqs.length then
            jsRound ((((reqs.map (fun r => r.1)).sum + (reqs.map (fun r => r.2.1)).sum : Nat) : ℚ) /
              reqs.length)
          else 0 } ∧
    |(reqs.foldl (fun st r => st.addRequest r.1 r.2.1 r.2.2) t0.reset).getSummary.totalCost -
        (reqs.map (fun r => r.2.2.totalCost)).sum| ≤ 1 / 20000 := by
  obtain ⟨h1, h2, h3, h4⟩ := tracker_foldl_fields reqs t0.reset
  have hreset : t0.reset = TokenUsageTracker.init := rfl
  have hsummary :
      (reqs.foldl (fun st r => st.addRequest r.1 r.2.1 r.2.2) t0.reset).getSummary =
      { totalInputTokens := (reqs.map (fun r => r.1)).sum
        totalOutputTokens := (reqs.map (fun r => r.2.1)).sum
        totalTokens := (reqs.map (fun r => r.1)).sum + (reqs.map (fun r => r.2.1)).sum
        totalCost := jsToFixed 4 ((reqs.map (fun r => r.2.2.totalCost)).sum)
        requestCount := reqs.length
        averageTokensPerRequest :=
          if 0 < reqs.length then
            jsRound ((((reqs.map (fun r => r.1)).sum + (reqs.map (fun r => r.2.1)).sum : Nat) : ℚ) /
              reqs.length)
          else 0 } := by
    unfold TokenUsageTracker.getSummary
    rw [h1, h2, h3, h4]
    simp [TokenUsageTracker.reset]
  refine ⟨hreset, hsummary, ?_⟩
  rw [hsummary]
  have hb := abs_jsToFixed_sub_le 4 ((reqs.map (fun r => r.2.2.totalCost)).sum)
  norm_num at hb
  exact hb

/-- Claim C9: `calculateCost` is total; a priced model yields each of input
cost, output cost and their sum rounded to 6 decimal places, an unpriced model
yields the all-zero cost object. -/
theorem calculateCost_spec (model : String) (inputTokens outputTokens : Nat) :
    calculateCost model inputTokens outputTokens =
      match TOKEN_PRICING model with
      | some pricing =>
        { inputCost := jsToFixed 6 (inputTokens * pricing.input)
          outputCost := jsToFixed 6 (outputTokens * pricing.output)
          totalCost := jsToFixed 6 (inputTokens * pricing.input + outputTokens * pricing.output) }
      | none => { inputCost := 0, outputCost := 0, totalCost := 0 } := by
  unfold calculateCost
  cases TOKEN_PRICING model <;> rfl

/-! ## Lemmas about search-volume processing -/

/-- The keyword-indexed mapping yields one record per original keyword. -/
theorem mapOriginalKeywords_length (vm : String → Option SearchVolumeRecord) :
    ∀ ks nks : List String, (mapOriginalKeywords vm ks nks).length = ks.length := by
  intro ks
  induction ks with
  | nil => intro nks; rfl
  | cons k rest ih =>
    intro nks
    cases nks with
    | nil => simp [mapOriginalKeywords, ih []]
    | cons nk nks2 => simp [mapOriginalKeywords, ih nks2]

/-- Each produced record carries the original keyword, hit or miss. -/
theorem svEntry_keyword (vm : String → Option SearchVolumeRecord) (k nk : String) :
    (svEntry vm k nk).keyword = k := by
  unfold svEntry
  cases vm nk <;> rfl

/-- Entry `k` of the final mapping is the entry for keyword `k` under its own
normalization, when the normalized list is the keyword list's image. -/
theorem mapOriginalKeywords_getElem (vm : String → Option SearchVolumeRecord) :
    ∀ (ks : List String) (norm : String → String) (k : Nat) (hk : k < ks.length),
      (mapOriginalKeywords vm ks (ks.map norm))[k]? =
        some (svEntry vm ks[k] (norm ks[k])) := by
  intro ks
  induction ks with
  | nil => intro norm k hk; simp at hk
  | cons a rest ih =>
    intro norm k hk
    cases k with
    | zero => simp [mapOriginalKeywords]
    | succ n =>
      have hn : n < rest.length := by simpa using hk
      simpa [mapOriginalKeywords] using ih norm n hn

/-- If no qualifying result item carries the key, the `volumeMap` misses. -/
theorem buildVolumeMap_eq_none (nk : String) :
    ∀ items : List ResultItem,
      (∀ item ∈ items, hasVolumeData item = true → jsLower item.keyword ≠ nk) →
      buildVolumeMap items nk = none := by
  have haux : ∀ (items : List ResultItem) (m : String → Option SearchVolumeRecord),
      m nk = none →
      (∀ item ∈ items, hasVolumeData item = true → jsLower item.keyword ≠ nk) →
      (items.foldl
        (fun volumeMap item =>
          if hasVolumeData item then
            fun key =>
              if key = jsLower item.keyword then some (itemRecord item) else volumeMap key
          else volumeMap) m) nk = none := by
    intro items
    induction items with
    | nil => intro m hm _; simpa using hm
    | cons item rest ih =>
      intro m hm hall
      simp only [List.foldl_cons]
      apply ih
      · by_cases hd : hasVolumeData item
        · have hne := hall item (by simp) hd
          simp only [if_pos hd]
          rw [if_neg (show ¬ nk = jsLower item.keyword from fun hcontra => hne hcontra.symm)]
          exact hm
        · simp only [if_neg hd]
          exact hm
      · intro it hit hd
        exact hall it (by simp [hit]) hd
  intro items hall
  exact haux items (fun _ => none) rfl hall

/-! ## Claim C5: search-volume lookup totality and zero-data fallback -/

/-- Claim C5: whenever `getSearchVolume` returns, it returns exactly one record
per requested keyword, in order, each carrying the original (non-normalized)
keyword; and a keyword the provider returned no data for maps to exactly the
zero-filled fallback record — never dropped, never null. -/
theorem getSearchVolume_spec (keywords : List String) (response : SVResponse)
    (records : List SearchVolumeRecord)
    (hne : keywords ≠ [])
    (h : getSearchVolume keywords response = Except.ok records) :
    records.length = keywords.length ∧
    (∀ k (hk : k < keywords.length),
      records[k]?.map (fun r => r.keyword) = some keywords[k]) ∧
    (∀ k (hk : k < keywords.length),
      providerHasNoData response (normalizeKeyword keywords[k]) →
      records[k]? = some (zeroVolumeRecord keywords[k])) := by
  obtain ⟨tasks⟩ := response
  cases tasks with
  | nil => exact absurd h (by simp [getSearchVolume])
  | cons task rest =>
    obtain ⟨result⟩ := task
    cases result with
    | none =>
      simp only [getSearchVolume, Except.ok.injEq] at h
      subst h
      refine ⟨by simp, ?_, ?_⟩
      · intro k hk
        simp [List.getElem?_map, List.getElem?_eq_getElem hk, zeroVolumeRecord]
      · intro k hk _
        simp [List.getElem?_map, List.getElem?_eq_getElem hk]
    | some items =>
      cases items with
      | nil =>
        simp only [getSearchVolume, List.isEmpty_nil, if_true, Except.ok.injEq] at h
        subst h
        refine ⟨by simp, ?_, ?_⟩
        · intro k hk
          simp [List.getElem?_map, List.getElem?_eq_getElem hk, zeroVolumeRecord]
        · intro k hk _
          simp [List.getElem?_map, List.getElem?_eq_getElem hk]
      | cons item0 items0 =>
        simp only [getSearchVolume, List.isEmpty_cons, Bool.false_eq_true, if_false,
          Except.ok.injEq] at h
        subst h
        unfold processSearchVolumeResults
        refine ⟨mapOriginalKeywords_length _ _ _, ?_, ?_⟩
        · intro k hk
          rw [mapOriginalKeywords_getElem _ keywords normalizeKeyword k hk]
          simp [svEntry_keyword]
        · intro k hk hnodata
          rw [mapOriginalKeywords_getElem _ keywords normalizeKeyword k hk]
          have hforall : ∀ item ∈ item0 :: items0, hasVolumeData item = true →
              jsLower item.keyword ≠ normalizeKeyword keywords[k] := hnodata
          have hnone := buildVolumeMap_eq_none (normalizeKeyword keywords[k])
            (item0 :: items0) hforall
          unfold svEntry
          rw [hnone]

/-- Closed witness for claim C5: one requested keyword, a provider response
carrying data only for a different keyword. -/
theorem getSearchVolume_spec_witness :
    c5Keywords ≠ [] ∧ getSearchVolume c5Keywords c5Response = Except.ok c5Records ∧
    (c5Records.length = c5Keywords.length ∧
      (∀ k (hk : k < c5Keywords.length),
        c5Records[k]?.map (fun r => r.keyword) = some c5Keywords[k]) ∧
      (∀ k (hk : k < c5Keywords.length),
        providerHasNoData c5Response (normalizeKeyword c5Keywords[k]) →
        c5Records[k]? = some (zeroVolumeRecord c5Keywords[k]))) :=
  ⟨by decide, rfl, getSearchVolume_spec c5Keywords c5Response c5Records (by decide) rfl⟩

/-! ## Lemmas about the polling loop -/

/-- One-step unfolding of the polling loop body. -/
theorem getTaskResultsAux_succ (request : Nat → Except String SVResponse)
    (retries fuel i : Nat) :
    getTaskResultsAux request retries (fuel + 1) i =
      (match request i with
      | .ok response =>
        match response.tasks.head?.bind (fun t => t.result) with
        | some result => ⟨[i], [], .ok result⟩
        | none =>
          let t := getTaskResultsAux request retries fuel (i + 1)
          if i < retries - 1 then ⟨i :: t.calls, pollWaitTime i :: t.waits, t.outcome⟩
          else ⟨i :: t.calls, t.waits, t.outcome⟩
      | .error e =>
        if i = retries - 1 then ⟨[i], [], .error e⟩
        else
          let t := getTaskResultsAux request retries fuel (i + 1)
          ⟨i :: t.calls, pollWaitTime i :: t.waits, t.outcome⟩ : PollTrace) := rfl

/-- The polling loop makes at most `fuel` request attempts. -/
theorem getTaskResultsAux_calls_le (request : Nat → Except String SVResponse)
    (retries : Nat) :
    ∀ fuel i, (getTaskResultsAux request retries fuel i).calls.length ≤ fuel := by
  intro fuel
  induction fuel with
  | zero => intro i; simp [getTaskResultsAux]
  | succ fuel ih =>
    intro i
    cases hreq : request i with
    | ok response =>
      cases hbind : response.tasks.head?.bind (fun t => t.result) with
      | some result => simp [getTaskResultsAux_succ, hreq, hbind]
      | none =>
        by_cases hcond : i < retries - 1
        · simp only [getTaskResultsAux_succ, hreq, hbind, if_pos hcond]
          have := ih (i + 1)
          simp only [List.length_cons]
          omega
        · simp only [getTaskResultsAux_succ, hreq, hbind, if_neg hcond]
          have := ih (i + 1)
          simp only [List.length_cons]
          omega
    | error e =>
      by_cases hcond : i = retries - 1
      · subst hcond
        simp only [getTaskResultsAux_succ, hreq, if_pos rfl]
        simp
      · simp only [getTaskResultsAux_succ, hreq, if_neg hcond]
        have := ih (i + 1)
        simp only [List.length_cons]
        omega

/-- When every attempt within the budget returns without a result payload, the
loop visits every attempt, sleeps the linear backoff between consecutive
attempts, and ends with the hard maximum-retries error. -/
theorem getTaskResultsAux_pending (request : Nat → Except String SVResponse)
    (retries : Nat)
    (hp : ∀ i, i < retries → attemptPending (request i) = true) :
    ∀ fuel i, i + fuel = retries →
      getTaskResultsAux request retries fuel i =
        ⟨List.range' i fuel, (List.range' i (fuel - 1)).map pollWaitTime,
          Except.error "Failed to get task results after maximum retries"⟩ := by
  intro fuel
  induction fuel with
  | zero => intro i hi; simp [getTaskResultsAux]
  | succ fuel ih =>
    intro i hi
    have hilt : i < retries := by omega
    have hpend := hp i hilt
    cases hreq : request i with
    | error e =>
      rw [hreq] at hpend
      simp [attemptPending] at hpend
    | ok response =>
      rw [hreq] at hpend
      have hbind : response.tasks.head?.bind (fun t => t.result) = none := by
        simpa [attemptPending, Option.isNone_iff_eq_none] using hpend
      by_cases hcond : i < retries - 1
      · have hfe : 1 ≤ fuel := by omega
        have hrec := ih (i + 1) (by omega)
        simp only [getTaskResultsAux_succ, hreq, hbind, if_pos hcond]
        rw [hrec]
        have h1 : List.range' i (fuel + 1) = i :: List.range' (i + 1) fuel :=
          List.range'_succ i fuel 1
        have h2 : List.range' i fuel = i :: List.range' (i + 1) (fuel - 1) := by
          calc List.range' i fuel = List.range' i ((fuel - 1) + 1) := by
                rw [Nat.sub_add_cancel hfe]
            _ = i :: List.range' (i + 1) (fuel - 1) := List.range'_succ i (fuel - 1) 1
        simp only [Nat.add_sub_cancel]
        rw [h1, h2]
        simp
      · have hfuel : fuel = 0 := by omega
        subst hfuel
        simp only [getTaskResultsAux_succ, hreq, hbind, if_neg hcond]
        simp [getTaskResultsAux, List.range'_one]

/-! ## Claim C8: polling attempt bound, backoff schedule and hard timeout -/

/-- Claim C8: the polling loop makes at most `retries` attempts; and when no
attempt obtains a result payload it makes exactly the attempts `0..retries-1`,
waits exactly `5000 + i*3000` ms after the `i`-th unsuccessful attempt before
the next one, and terminates by throwing the hard maximum-retries error. -/
theorem getTaskResults_spec (request : Nat → Except String SVResponse) (retries : Nat) :
    (getTaskResults request retries).calls.length ≤ retries ∧
    ((∀ i, i < retries → attemptPending (request i) = true) →
      getTaskResults request retries =
        ⟨List.range' 0 retries, (List.range' 0 (retries - 1)).map pollWaitTime,
          Except.error "Failed to get task results after maximum retries"⟩) := by
  constructor
  · exact getTaskResultsAux_calls_le request retries retries 0
  · intro hp
    exact getTaskResultsAux_pending request retries hp retries 0 (by omega)

/-- Closed witness for claim C8 at the default live-variant budget of 8, with
an oracle whose responses never carry a result. -/
theorem getTaskResults_spec_witness :
    (∀ i, i < 8 → attemptPending (c8Request i) = true) ∧
    getTaskResults c8Request 8 =
      ⟨List.range' 0 8, (List.range' 0 7).map pollWaitTime,
        Except.error "Failed to get task results after maximum retries"⟩ :=
  ⟨fun _ _ => rfl, (getTaskResults_spec c8Request 8).2 (fun _ _ => rfl)⟩

/-! ## Lemmas about competitor content -/

/-- Every produced entry (success or placeholder) carries its URL. -/
theorem competitorEntry_url (fetchPage : String → Option FetchedPage)
    (domainOf : String → String) (url : String) :
    (competitorEntry fetchPage domainOf url).url = url := by
  unfold competitorEntry
  cases fetchPage url <;> rfl

/-! ## Claim C7 (corrected): competitor content cap, isolation and filter -/

/-- Counterexample to claim C7 as stated: the meaningful-content filter is
strict (`contentLength > 100`), so an attempted URL whose extracted content has
exactly 100 characters — not below the threshold of 100 — is nevertheless
excluded from the returned list. -/
theorem getCompetitorContent_filter_cex :
    (competitorEntry c7Fetch c7Domain "u").contentLength = 100 ∧
    ("u" ∈ (["u"] : List String).take 3) ∧
    getCompetitorContent c7Fetch c7Domain ["u"] 3 = [] := by
  refine ⟨by decide, by decide, by decide⟩

/-- Claim C7 (amended): `getCompetitorContent` attempts only the first `limit`
URLs; a per-URL fetch failure yields the placeholder entry (contentLength 0)
instead of propagating; and the returned list is exactly the attempted entries
whose `contentLength` strictly exceeds 100 characters (so every placeholder is
excluded). -/
theorem getCompetitorContent_spec (fetchPage : String → Option FetchedPage)
    (domainOf : String → String) (urls : List String) (limit : Nat) :
    getCompetitorContent fetchPage domainOf urls limit =
      ((urls.take limit).map (competitorEntry fetchPage domainOf)).filter
        (fun r => 100 < r.contentLength) ∧
    (∀ url, fetchPage url = none →
      competitorEntry fetchPage domainOf url = placeholderContent domainOf url ∧
      (placeholderContent domainOf url).contentLength = 0) ∧
    (∀ r ∈ getCompetitorContent fetchPage domainOf urls limit,
      100 < r.contentLength ∧ r.url ∈ urls.take limit) := by
  refine ⟨rfl, ?_, ?_⟩
  · intro url hurl
    constructor
    · unfold competitorEntry
      rw [hurl]
    · rfl
  · intro r hr
    simp only [getCompetitorContent] at hr
    obtain ⟨hmem, hp⟩ := List.mem_filter.mp hr
    constructor
    · simpa using hp
    · obtain ⟨url, hurl, hf⟩ := List.mem_map.mp hmem
      rw [← hf, competitorEntry_url]
      exact hurl

/-- Closed witness for the amended claim C7 at a concrete URL list. -/
theorem getCompetitorContent_spec_witness :
    getCompetitorContent c7Fetch c7Domain ["u"] 3 =
      (((["u"] : List String).take 3).map (competitorEntry c7Fetch c7Domain)).filter
        (fun r => 100 < r.contentLength) ∧
    (∀ url, c7Fetch url = none →
      competitorEntry c7Fetch c7Domain url = placeholderContent c7Domain url ∧
      (placeholderContent c7Domain url).contentLength = 0) ∧
    (∀ r ∈ getCompetitorContent c7Fetch c7Domain ["u"] 3,
      100 < r.contentLength ∧ r.url ∈ (["u"] : List String).take 3) :=
  getCompetitorContent_spec c7Fetch c7Domain ["u"] 3

/-! ## Lemmas about the batch orchestrator -/

/-- A successfully processed page's result carries the page's own name. -/
theorem processSinglePage_ok_pageName (env : GenEnv) (pageName : String) (r : PageResult)
    (h : processSinglePage env pageName = Except.ok r) : r.pageName = pageName := by
  simp only [processSinglePage] at h
  cases hout : (generateWithRetry (env.generateDescription pageName (svLookup env pageName))
      geminiDefaultMaxRetries (compLookup env pageName).2).outcome with
  | error e => simp only [hout] at h; exact absurd h (by simp)
  | ok o =>
    cases o with
    | none => simp only [hout] at h; exact absurd h (by simp)
    | some d =>
      simp only [hout, Except.ok.injEq] at h
      rw [← h]

/-- The failure boundary never changes the reported page name. -/
theorem pageOutcome_pageName (env : GenEnv) (p : String) :
    (pageOutcome env p).pageName = p := by
  unfold pageOutcome
  cases h : processSinglePage env p with
  | ok r => simp [processSinglePage_ok_pageName env p r h]
  | error e => rfl

/-- For a positive batch size, the chunked batch loop is the elementwise map:
consecutive slices of the page list concatenate back to the page list. -/
theorem processBatchLoop_eq_map (f : String → BatchEntry) (batchSize : Nat)
    (hbs : 1 ≤ batchSize) :
    ∀ l : List String, processBatchLoop f batchSize l = l.map f := by
  have H : ∀ (n : Nat) (l : List String), l.length = n →
      processBatchLoop f batchSize l = l.map f := by
    intro n
    induction n using Nat.strong_induction_on with
    | _ n ih =>
      intro l hlen
      cases l with
      | nil => simp [processBatchLoop]
      | cons p ps =>
        have hdrop : (ps.drop (batchSize - 1)).length < n := by
          simp only [List.length_cons] at hlen
          simp only [List.length_drop]
          omega
        rw [processBatchLoop]
        rw [ih _ hdrop _ rfl]
        have hsplit : (f p :: (ps.take (batchSize - 1)).map f) ++ (ps.drop (batchSize - 1)).map f
            = f p :: ((ps.take (batchSize - 1)).map f ++ (ps.drop (batchSize - 1)).map f) := by
          simp
        rw [hsplit, ← List.map_append, List.take_append_drop, List.map_cons]
  intro l
  exact H l.length l rfl

/-- The batch result list is the elementwise image of the page list under the
per-page failure boundary. -/
theorem processPagesConcurrently_eq_map (env : GenEnv) (pages : List String) :
    processPagesConcurrently env pages = pages.map (pageOutcome env) := by
  unfold processPagesConcurrently
  exact processBatchLoop_eq_map (pageOutcome env) SYSTEM_CONFIG_maxConcurrent (by decide) pages

/-! ## Claims C1, C2 and C10: batch shape, failure isolation, search-volume nulling -/

/-- Claim C1: for a valid batch (1 to 10 pages), the batch returns exactly one
entry per page, in input order, and the entry at each position carries that
position's input page name, regardless of per-page success or failure. -/
theorem processPagesConcurrently_order_spec (env : GenEnv) (pages : List String)
    (h1 : 1 ≤ pages.length) (h2 : pages.length ≤ 10) :
    (processPagesConcurrently env pages).length = pages.length ∧
    (∀ k (hk : k < pages.length),
      (processPagesConcurrently env pages)[k]? = some (pageOutcome env pages[k])) ∧
    (∀ k (hk : k < pages.length),
      (processPagesConcurrently env pages)[k]?.map (fun entry => entry.pageName) =
        some pages[k]) := by
  have hmap := processPagesConcurrently_eq_map env pages
  refine ⟨by rw [hmap]; simp, ?_, ?_⟩
  · intro k hk
    rw [hmap]
    simp [List.getElem?_map, List.getElem?_eq_getElem hk]
  · intro k hk
    rw [hmap]
    simp [List.getElem?_map, List.getElem?_eq_getElem hk, pageOutcome_pageName]

/-- Closed witness for claim C1 on a two-page batch where one page fails. -/
theorem processPagesConcurrently_order_spec_witness :
    1 ≤ (["good", "bad"] : List String).length ∧ (["good", "bad"] : List String).length ≤ 10 ∧
    ((processPagesConcurrently c2Env ["good", "bad"]).length =
        (["good", "bad"] : List String).length ∧
      (∀ k (hk : k < (["good", "bad"] : List String).length),
        (processPagesConcurrently c2Env ["good", "bad"])[k]? =
          some (pageOutcome c2Env (["good", "bad"] : List String)[k])) ∧
      (∀ k (hk : k < (["good", "bad"] : List String).length),
        (processPagesConcurrently c2Env ["good", "bad"])[k]?.map (fun entry => entry.pageName) =
          some (["good", "bad"] : List String)[k])) :=
  ⟨by decide, by decide,
    processPagesConcurrently_order_spec c2Env ["good", "bad"] (by decide) (by decide)⟩

/-- Claim C2: the entry at position `k` depends only on page `k`'s own
processing; a page whose processing throws yields exactly
`{pageName, success: false, error}`, a page whose processing completes yields
its result with `success: true` — no failure aborts the batch or a sibling. -/
theorem processPagesConcurrently_isolation_spec (env : GenEnv) (pages : List String)
    (k : Nat) (hk : k < pages.length) :
    (processPagesConcurrently env pages)[k]? = some (pageOutcome env pages[k]) ∧
    (∀ e, processSinglePage env pages[k] = Except.error e →
      pageOutcome env pages[k] = ⟨pages[k], false, some e, none⟩) ∧
    (∀ r, processSinglePage env pages[k] = Except.ok r →
      pageOutcome env pages[k] = ⟨r.pageName, true, none, some r⟩) := by
  refine ⟨?_, ?_, ?_⟩
  · rw [processPagesConcurrently_eq_map env pages]
    simp [List.getElem?_map, List.getElem?_eq_getElem hk]
  · intro e he
    unfold pageOutcome
    simp only [he]
  · intro r hr
    unfold pageOutcome
    simp only [hr]

/-- Closed witness for claim C2 at the failing page of a two-page batch. -/
theorem processPagesConcurrently_isolation_spec_witness :
    1 < (["good", "bad"] : List String).length ∧
    ((processPagesConcurrently c2Env ["good", "bad"])[1]? =
        some (pageOutcome c2Env (["good", "bad"] : List String)[1]) ∧
      (∀ e, processSinglePage c2Env (["good", "bad"] : List String)[1] = Except.error e →
        pageOutcome c2Env (["good", "bad"] : List String)[1] =
          ⟨(["good", "bad"] : List String)[1], false, some e, none⟩) ∧
      (∀ r, processSinglePage c2Env (["good", "bad"] : List String)[1] = Except.ok r →
        pageOutcome c2Env (["good", "bad"] : List String)[1] =
          ⟨r.pageName, true, none, some r⟩)) :=
  ⟨by decide, processPagesConcurrently_isolation_spec c2Env ["good", "bad"] 1 (by decide)⟩

/-- Claim C10: a page whose search-volume sub-fetch produced the zero-filled
fallback record gets `searchVolume: null` in its result — indistinguishable
from a failed or disabled fetch — and the result carries a numeric volume only
when that volume is nonzero. -/
theorem processSinglePage_searchVolume_spec (env : GenEnv) (pageName : String)
    (res : PageResult) (h : processSinglePage env pageName = Except.ok res) :
    (∀ record, svLookup env pageName = some record → record.searchVolume = 0 →
      res.searchVolume = none) ∧
    (svLookup env pageName = none → res.searchVolume = none) ∧
    (∀ v, res.searchVolume = some v →
      v ≠ 0 ∧ ∃ record, svLookup env pageName = some record ∧ record.searchVolume = v) := by
  have key : res.searchVolume =
      (match svLookup env pageName with
      | some record =>
        if record.searchVolume = 0 then none else some record.searchVolume
      | none => none) := by
    simp only [processSinglePage] at h
    cases hout : (generateWithRetry (env.generateDescription pageName (svLookup env pageName))
        geminiDefaultMaxRetries (compLookup env pageName).2).outcome with
    | error e => simp only [hout] at h; exact absurd h (by simp)
    | ok o =>
      cases o with
      | none => simp only [hout] at h; exact absurd h (by simp)
      | some d =>
        simp only [hout, Except.ok.injEq] at h
        rw [← h]
  refine ⟨?_, ?_, ?_⟩
  · intro record hrec h0
    simp only [hrec] at key
    simpa [h0] using key
  · intro hnone
    simp only [hnone] at key
    simpa using key
  · intro v hv
    rw [hv] at key
    cases hsv : svLookup env pageName with
    | none => simp only [hsv] at key; simp at key
    | some record =>
      simp only [hsv] at key
      by_cases h0 : record.searchVolume = 0
      · rw [if_pos h0] at key
        simp at key
      · rw [if_neg h0] at key
        simp only [Option.some.injEq] at key
        exact ⟨by rw [key]; exact h0, record, rfl, key.symm⟩

/-- Closed witness for claim C10: the sub-fetch returns the zero-filled
fallback record, the result's `searchVolume` is null. -/
theorem processSinglePage_searchVolume_spec_witness :
    processSinglePage c10Env "p" = Except.ok c10Res ∧
    ((∀ record, svLookup c10Env "p" = some record → record.searchVolume = 0 →
        c10Res.searchVolume = none) ∧
      (svLookup c10Env "p" = none → c10Res.searchVolume = none) ∧
      (∀ v, c10Res.searchVolume = some v →
        v ≠ 0 ∧ ∃ record, svLookup c10Env "p" = some record ∧ record.searchVolume = v)) :=
  ⟨rfl, processSinglePage_searchVolume_spec c10Env "p" c10Res rfl⟩
